import Mathlib

/-!
Shallow embedding of the AuditApp warehouse-audit core: the OTP issuance and
verification workflow (`src/lib/supabase.ts`, `TeamLeaderDashboard`) and the
counting-session state machine of the worker dashboard
(`src/components/WorkerDashboard.tsx`).

Times are modelled as milliseconds since the epoch (`Int`), matching the
JavaScript `Date.now()` / ISO-string comparisons of the source (ISO-8601 UTC
strings compare chronologically).  The remote table store is modelled as
in-memory lists of rows; each Supabase query in the source is translated to the
corresponding list operation, including the `.single()` semantics of PostgREST
(an error whenever the filtered result does not contain exactly one row).
-/

/-- Rounding as performed by JavaScript `Math.round`: half-way values round
towards positive infinity. -/
def jsRound (q : ℚ) : Int := ⌊q + 1/2⌋

/-- Row of the `otp_requests` table (`src/types/index.ts`). -/
structure OTPRequest where
  id : Nat
  worker_id : String
  team_leader_id : String
  otp_code : String
  is_used : Bool
  expires_at : Int
deriving DecidableEq

/-- Numeric value of the generated one-time code:
`Math.floor(100000 + Math.random() * 900000)` from `generateOTP` in
`src/lib/supabase.ts`.  `Math.random()` is modelled by an arbitrary natural
seed `r`; `r % 900000` ranges over exactly the values `Math.floor` of
`Math.random() * 900000` can take. -/
def generateOTPNum (r : Nat) : Nat := 100000 + r % 900000

/-- The `.toString()` of the generated code (`generateOTP`). -/
def generateOTP (r : Nat) : String := Nat.repr (generateOTPNum r)

/-- Translation of `createOTPRequest` (`src/lib/supabase.ts`): builds the row
with the generated code, `expires_at = now + 10 minutes`, `is_used = false`
(the column default of the `otp_requests` table), inserts it and returns it. -/
def createOTPRequest (store : List OTPRequest) (workerId teamLeaderId : String)
    (now : Int) (r : Nat) (newId : Nat) : OTPRequest × List OTPRequest :=
  let req : OTPRequest :=
    { id := newId
      worker_id := workerId
      team_leader_id := teamLeaderId
      otp_code := generateOTP r
      is_used := false
      expires_at := now + 10 * 60 * 1000 }
  (req, store ++ [req])

/-- The filter chain of `verifyOTP`:
`.eq('worker_id', w).eq('otp_code', c).eq('is_used', false)
.gt('expires_at', now)`. -/
def otpEligible (w c : String) (now : Int) (r : OTPRequest) : Bool :=
  r.worker_id == w && r.otp_code == c && r.is_used == false
    && decide (now < r.expires_at)

/-- Rows surviving the filter chain of `verifyOTP`. -/
def matchingOTPs (store : List OTPRequest) (w c : String) (now : Int) :
    List OTPRequest :=
  store.filter (otpEligible w c now)

/-- The follow-up update of `verifyOTP`:
`.update({ is_used: true }).eq('id', data.id)`. -/
def markOTPUsed (store : List OTPRequest) (reqId : Nat) : List OTPRequest :=
  store.map (fun q => if q.id = reqId then { q with is_used := true } else q)

/-- Translation of `verifyOTP` (`src/lib/supabase.ts`): fetches the single
unused, unexpired row matching `(worker_id, otp_code)` — `.single()` yields an
error unless exactly one row matches — marks it used, and returns the fetched
row together with the updated store.  Every failure raises the same
`'Invalid or expired OTP'` error. -/
def verifyOTP (store : List OTPRequest) (w c : String) (now : Int) :
    Except String (OTPRequest × List OTPRequest) :=
  match matchingOTPs store w c now with
  | [r] => .ok (r, markOTPUsed store r.id)
  | _ => .error "Invalid or expired OTP"

/-- Row of the `users` table, restricted to the fields the OTP approval flow
touches (`src/types/index.ts`). -/
structure User where
  id : String
  username : String
  is_approved : Bool
deriving DecidableEq

/-- Combined store for the approval flow: `users` and `otp_requests`. -/
structure ApprovalState where
  users : List User
  otps : List OTPRequest
deriving DecidableEq

/-- Translation of `handleOTPVerification` (`TeamLeaderDashboard` in
`src/lib/supabase.ts`): calls `verifyOTP`; on success updates the worker row to
`is_approved = true`; the `catch` branch of a verification failure performs no
store mutation. -/
def handleOTPVerification (st : ApprovalState) (workerId code : String)
    (now : Int) : ApprovalState :=
  match verifyOTP st.otps workerId code now with
  | .ok (_, otps') =>
      { users := st.users.map
          (fun u => if u.id = workerId then { u with is_approved := true } else u)
        otps := otps' }
  | .error _ => st

/-- Row of the `counting_sessions` table (`src/types/index.ts`; status is one
of the strings `'active'` / `'completed'`, as in the schema CHECK). -/
structure CountingSession where
  id : Nat
  worker_id : String
  start_time : Int
  end_time : Option Int
  status : String
  total_bins_counted : Nat
  total_qty_counted : Nat
deriving DecidableEq

/-- Row of the `counting_records` table, restricted to the fields populated by
`confirmQuantity` in `src/components/WorkerDashboard.tsx`. -/
structure CountingRecord where
  session_id : Nat
  warehouse_name : String
  date : String
  team_leader_name : String
  username : String
  bin_no : String
  qty_counted : Nat
  qty_as_per_books : Nat
  difference : Int
deriving DecidableEq

/-- Row of the `worker_efficiency` table as populated by `endCounting`. -/
structure WorkerEfficiency where
  warehouse_name : String
  date : String
  username : String
  bins_counted : Nat
  qty_counted : Nat
  time_taken_minutes : Int
  efficiency_score : Int
  ranking : Nat
deriving DecidableEq

/-- The three tables the worker-dashboard flow writes to. -/
structure CStore where
  sessions : List CountingSession
  records : List CountingRecord
  efficiencies : List WorkerEfficiency
deriving DecidableEq

/-- The fields of the signed-in user that the worker dashboard reads. -/
structure UserCtx where
  id : String
  username : String
  warehouse_name : String

/-- The inline efficiency computation of `endCounting`:
`Math.min(100, Math.round((total_bins_counted / Math.max(1, timeTakenMinutes)) * 60))`. -/
def efficiencyScore (bins : Nat) (timeTakenMinutes : Int) : Int :=
  min 100 (jsRound ((bins : ℚ) / ((max 1 timeTakenMinutes : Int) : ℚ) * 60))

/-- The filter of the active-session queries:
`.eq('worker_id', w).eq('status', 'active')`. -/
def activeSessions (l : List CountingSession) (w : String) :
    List CountingSession :=
  l.filter (fun s => s.worker_id == w && s.status == "active")

/-- The `.single()` active-session fetch of `loadData`: some row exactly when
the filter returns one row. -/
def singleActive (store : CStore) (w : String) : Option CountingSession :=
  match activeSessions store.sessions w with
  | [s] => some s
  | _ => none

/-- Translation of the store insert in `startCounting`: a fresh session with
`start_time = now`, `status = 'active'` and zeroed totals. -/
def startCounting (store : CStore) (u : UserCtx) (now : Int) (newId : Nat) :
    CountingSession × CStore :=
  let s : CountingSession :=
    { id := newId
      worker_id := u.id
      start_time := now
      end_time := none
      status := "active"
      total_bins_counted := 0
      total_qty_counted := 0 }
  (s, { store with sessions := store.sessions ++ [s] })

/-- The per-row effect of the session update in `endCounting`:
`.update({ end_time, status: 'completed' }).eq('id', cur.id)`. -/
def closeSession (cur : CountingSession) (now : Int) (s : CountingSession) :
    CountingSession :=
  if s.id = cur.id then { s with end_time := some now, status := "completed" }
  else s

/-- The per-row effect of the totals update in `confirmQuantity`:
`.update({ total_bins_counted: cur.total_bins_counted + 1,
total_qty_counted: cur.total_qty_counted + qty }).eq('id', cur.id)` — the new
totals are computed from the client snapshot `cur`. -/
def bumpTotals (cur : CountingSession) (qty : Nat) (s : CountingSession) :
    CountingSession :=
  if s.id = cur.id then
    { s with total_bins_counted := cur.total_bins_counted + 1
             total_qty_counted := cur.total_qty_counted + qty }
  else s

/-- Translation of the store writes of `endCounting`: compute
`timeTakenMinutes = Math.round((end - start) / (1000 * 60))`, set the session
to `completed` with `end_time`, and insert one `worker_efficiency` row with
the session totals, the elapsed minutes, the computed score and
`ranking = 1`. -/
def endCounting (store : CStore) (cur : CountingSession) (u : UserCtx)
    (now : Int) (today : String) : CStore :=
  let timeTakenMinutes : Int := jsRound (((now - cur.start_time : Int) : ℚ) / (1000 * 60))
  { sessions := store.sessions.map (closeSession cur now)
    records := store.records
    efficiencies := store.efficiencies ++
      [{ warehouse_name := u.warehouse_name
         date := today
         username := u.username
         bins_counted := cur.total_bins_counted
         qty_counted := cur.total_qty_counted
         time_taken_minutes := timeTakenMinutes
         efficiency_score := efficiencyScore cur.total_bins_counted timeTakenMinutes
         ranking := 1 }] }

/-- Translation of the store writes of `confirmQuantity`: append one
`counting_records` row (with the hardcoded `team_leader_name = 'TL1'`, the
mock `qty_as_per_books` modelled as the input `bookQty`, and `difference = 0`),
then write the session totals as the client snapshot's totals plus this
count. -/
def confirmQuantity (store : CStore) (cur : CountingSession) (u : UserCtx)
    (today bin : String) (qty bookQty : Nat) : CStore :=
  { sessions := store.sessions.map (bumpTotals cur qty)
    records := store.records ++
      [{ session_id := cur.id
         warehouse_name := u.warehouse_name
         date := today
         team_leader_name := "TL1"
         username := u.username
         bin_no := bin
         qty_counted := qty
         qty_as_per_books := bookQty
         difference := 0 }]
    efficiencies := store.efficiencies }

/-- A worker-dashboard system state: the store plus, per worker, the
component's `currentSession` snapshot. -/
structure WSys where
  store : CStore
  clients : String → Option CountingSession

/-- Component-level `startCounting`: the Start button is rendered only when
the component has no `currentSession`; on success the inserted row becomes the
`currentSession` (`setCurrentSession(data)`). -/
def startFn (sys : WSys) (u : UserCtx) (now : Int) (newId : Nat) : Option WSys :=
  match sys.clients u.id with
  | some _ => none
  | none =>
      let p := startCounting sys.store u now newId
      some { store := p.2
             clients := fun w => if w = u.id then some p.1 else sys.clients w }

/-- Component-level `endCounting`: guarded by `if (!currentSession) return`;
afterwards `setCurrentSession(null)` and `loadData()` re-fetches the single
active session (leaving `null` in place when the fetch finds none). -/
def endFn (sys : WSys) (u : UserCtx) (now : Int) (today : String) : Option WSys :=
  match sys.clients u.id with
  | none => none
  | some cur =>
      let store' := endCounting sys.store cur u now today
      some { store := store'
             clients := fun w =>
               if w = u.id then
                 match singleActive store' u.id with
                 | some s => some s
                 | none => none
               else sys.clients w }

/-- Component-level `confirmQuantity`: guarded by
`if (!selectedBin || !quantity || !currentSession) return`; afterwards
`loadData()` re-fetches the single active session, keeping the previous
`currentSession` when the fetch finds none. -/
def recordFn (sys : WSys) (u : UserCtx) (today bin : String)
    (qty bookQty : Nat) : Option WSys :=
  match sys.clients u.id with
  | none => none
  | some cur =>
      let store' := confirmQuantity sys.store cur u today bin qty bookQty
      some { store := store'
             clients := fun w =>
               if w = u.id then
                 match singleActive store' u.id with
                 | some s => some s
                 | none => sys.clients u.id
               else sys.clients w }

/-- The empty initial system: no rows, no client has a current session. -/
def initSys : WSys :=
  { store := { sessions := [], records := [], efficiencies := [] }
    clients := fun _ => none }

/-- States reachable from the empty store through the worker-dashboard
operations.  The store generates the ids of inserted sessions, so the start
step carries the freshness of the new id. -/
inductive Reach : WSys → Prop where
  | init : Reach initSys
  | start {sys sys' : WSys} {u : UserCtx} {now : Int} {newId : Nat} :
      Reach sys → (∀ s ∈ sys.store.sessions, s.id ≠ newId) →
      startFn sys u now newId = some sys' → Reach sys'
  | record {sys sys' : WSys} {u : UserCtx} {today bin : String}
      {qty bookQty : Nat} :
      Reach sys → recordFn sys u today bin qty bookQty = some sys' → Reach sys'
  | endSession {sys sys' : WSys} {u : UserCtx} {now : Int} {today : String} :
      Reach sys → endFn sys u now today = some sys' → Reach sys'

/-- Coherence invariant of the dashboard: session ids are pairwise distinct,
and each worker's client snapshot is exactly the worker's list of active
sessions (empty, or the one current session). -/
def Coherent (sys : WSys) : Prop :=
  (sys.store.sessions.map (fun s => s.id)).Nodup ∧
  (∀ w, sys.clients w = none → activeSessions sys.store.sessions w = []) ∧
  (∀ w cur, sys.clients w = some cur → activeSessions sys.store.sessions w = [cur])

/-- Concrete worker used to exercise the dashboard operations. -/
def demoUser : UserCtx :=
  { id := "w1", username := "worker1", warehouse_name := "WH1" }

/-- The session `startCounting` inserts for `demoUser` at time `0` with id `1`. -/
def demoSession : CountingSession :=
  { id := 1, worker_id := "w1", start_time := 0, end_time := none
    status := "active", total_bins_counted := 0, total_qty_counted := 0 }

/-- The system right after `demoUser` starts a session in the empty store. -/
def demoSys1 : WSys :=
  { store := { sessions := [demoSession], records := [], efficiencies := [] }
    clients := fun w => if w = "w1" then some demoSession else none }

/-- A sample scenario: start a session, count bin `A001` with quantity 85,
then bin `A002` with quantity 40. -/
def demoStep : Option WSys :=
  (startFn initSys demoUser 0 1).bind (fun s1 =>
    (recordFn s1 demoUser "2025-01-01" "A001" 85 100).bind (fun s2 =>
      recordFn s2 demoUser "2025-01-01" "A002" 40 60))

/-- A sample outstanding OTP request. -/
def demoOTP : OTPRequest :=
  { id := 1, worker_id := "w", team_leader_id := "t", otp_code := "123456"
    is_used := false, expires_at := 1000 }

/-- A store holding exactly one eligible request. -/
def demoOTPStore : List OTPRequest := [demoOTP]

/-- A store holding two identical outstanding requests for the same worker
and code (possible because issuance performs no uniqueness check). -/
def dupOTPStore : List OTPRequest :=
  [demoOTP,
   { id := 2, worker_id := "w", team_leader_id := "t", otp_code := "123456"
     is_used := false, expires_at := 1000 }]

/-- A sample approval state with one unapproved worker and no requests. -/
def demoApproval : ApprovalState :=
  { users := [{ id := "w", username := "worker", is_approved := false }]
    otps := [] }

lemma mem_activeSessions {l : List CountingSession} {w : String}
    {s : CountingSession} :
    s ∈ activeSessions l w ↔ s ∈ l ∧ s.worker_id = w ∧ s.status = "active" := by
  simp [activeSessions, List.mem_filter, and_assoc]

lemma id_inj_of_nodup {l : List CountingSession}
    (h : (l.map (fun s => s.id)).Nodup) {a b : CountingSession}
    (ha : a ∈ l) (hb : b ∈ l) (hid : a.id = b.id) : a = b :=
  List.inj_on_of_nodup_map h ha hb hid

lemma filter_map_of_pred {α : Type} (f : α → α) (p : α → Bool) :
    ∀ l : List α, (∀ a ∈ l, p (f a) = p a) →
      (l.map f).filter p = (l.filter p).map f := by
  intro l
  induction l with
  | nil => intro _; rfl
  | cons a t ih =>
    intro hf
    have ha := hf a (by simp)
    have ht : ∀ b ∈ t, p (f b) = p b := fun b hb => hf b (by simp [hb])
    simp only [List.map_cons, List.filter_cons, ha]
    cases hpa : p a <;> simp [ih ht]

lemma coherent_initSys : Coherent initSys := by
  refine ⟨by simp [initSys], fun w _ => rfl, fun w cur h => ?_⟩
  simp [initSys] at h

lemma coherent_start {sys sys' : WSys} {u : UserCtx} {now : Int} {newId : Nat}
    (hC : Coherent sys) (hfresh : ∀ s ∈ sys.store.sessions, s.id ≠ newId)
    (h : startFn sys u now newId = some sys') : Coherent sys' := by
  obtain ⟨hnd, hnone, hsome⟩ := hC
  unfold startFn at h
  cases hcl : sys.clients u.id with
  | some c => rw [hcl] at h; exact absurd h (by simp)
  | none =>
    rw [hcl] at h
    injection h with h
    subst h
    refine ⟨?_, ?_, ?_⟩
    · simp only [startCounting, List.map_append, List.map_cons, List.map_nil]
      refine List.nodup_append.mpr ⟨hnd, by simp, ?_⟩
      intro a ha hb
      simp only [List.mem_singleton] at hb
      subst hb
      simp only [List.mem_map] at ha
      obtain ⟨s, hs, hsid⟩ := ha
      exact hfresh s hs hsid
    · intro w hw
      simp only at hw
      by_cases hwu : w = u.id
      · simp [hwu] at hw
      · simp only [if_neg hwu] at hw
        have h1 : List.filter
            (fun s => s.worker_id == w && s.status == "active")
            sys.store.sessions = [] := hnone w hw
        have h2 : (u.id == w) = false :=
          beq_eq_false_iff_ne.mpr (fun h => hwu h.symm)
        simp [startCounting, activeSessions, List.filter_append, h1, h2]
    · intro w cur hw
      simp only at hw
      by_cases hwu : w = u.id
      · subst hwu
        simp only [startCounting, if_true] at hw
        have h0 : List.filter
            (fun s => s.worker_id == u.id && s.status == "active")
            sys.store.sessions = [] := hnone u.id hcl
        simp only [Option.some.injEq] at hw
        subst hw
        simp [startCounting, activeSessions, List.filter_append, h0]
      · simp only [if_neg hwu] at hw
        have h1 : List.filter
            (fun s => s.worker_id == w && s.status == "active")
            sys.store.sessions = [cur] := hsome w cur hw
        have h2 : (u.id == w) = false :=
          beq_eq_false_iff_ne.mpr (fun h => hwu h.symm)
        simp [startCounting, activeSessions, List.filter_append, h1, h2]

lemma bumpTotals_id (cur : CountingSession) (qty : Nat) (s : CountingSession) :
    (bumpTotals cur qty s).id = s.id := by
  unfold bumpTotals; split <;> rfl

lemma bumpTotals_pred (cur : CountingSession) (qty : Nat) (w : String)
    (s : CountingSession) :
    ((bumpTotals cur qty s).worker_id == w && (bumpTotals cur qty s).status == "active")
      = (s.worker_id == w && s.status == "active") := by
  unfold bumpTotals; split <;> rfl

lemma bumpTotals_of_ne (cur : CountingSession) (qty : Nat)
    {s : CountingSession} (h : s.id ≠ cur.id) : bumpTotals cur qty s = s := by
  unfold bumpTotals; rw [if_neg h]

lemma closeSession_id (cur : CountingSession) (now : Int) (s : CountingSession) :
    (closeSession cur now s).id = s.id := by
  unfold closeSession; split <;> rfl

lemma closeSession_of_ne (cur : CountingSession) (now : Int)
    {s : CountingSession} (h : s.id ≠ cur.id) : closeSession cur now s = s := by
  unfold closeSession; rw [if_neg h]

lemma map_id_nodup {l : List CountingSession} {f : CountingSession → CountingSession}
    (hfid : ∀ s, (f s).id = s.id)
    (h : (l.map (fun s => s.id)).Nodup) :
    ((l.map f).map (fun s => s.id)).Nodup := by
  rw [List.map_map]
  have : l.map ((fun s => s.id) ∘ f) = l.map (fun s => s.id) :=
    List.map_congr_left (fun a _ => hfid a)
  rw [this]
  exact h

lemma activeSessions_map {l : List CountingSession}
    {f : CountingSession → CountingSession} {w : String}
    (hp : ∀ s ∈ l,
      ((f s).worker_id == w && (f s).status == "active")
        = (s.worker_id == w && s.status == "active")) :
    activeSessions (l.map f) w = (activeSessions l w).map f :=
  filter_map_of_pred f _ l hp

lemma coherent_record {sys sys' : WSys} {u : UserCtx} {today bin : String}
    {qty bookQty : Nat}
    (hC : Coherent sys)
    (h : recordFn sys u today bin qty bookQty = some sys') : Coherent sys' := by
  obtain ⟨hnd, hnone, hsome⟩ := hC
  unfold recordFn at h
  cases hcl : sys.clients u.id with
  | none => rw [hcl] at h; exact absurd h (by simp)
  | some cur =>
    rw [hcl] at h
    injection h with h
    subst h
    have hcur : activeSessions sys.store.sessions u.id = [cur] :=
      hsome u.id cur hcl
    have hcurmem : cur ∈ sys.store.sessions :=
      (mem_activeSessions.mp (hcur ▸ List.mem_singleton.mpr rfl)).1
    have hmap : ∀ w, activeSessions
        (sys.store.sessions.map (bumpTotals cur qty)) w
        = (activeSessions sys.store.sessions w).map (bumpTotals cur qty) :=
      fun w => activeSessions_map (fun s _ => bumpTotals_pred cur qty w s)
    have hsingle : singleActive
        (confirmQuantity sys.store cur u today bin qty bookQty) u.id
        = some (bumpTotals cur qty cur) := by
      unfold singleActive confirmQuantity
      rw [hmap u.id, hcur]
      rfl
    refine ⟨?_, ?_, ?_⟩
    · simp only [confirmQuantity]
      exact map_id_nodup (bumpTotals_id cur qty) hnd
    · intro w hw
      simp only [hsingle] at hw
      by_cases hwu : w = u.id
      · rw [if_pos hwu] at hw; exact absurd hw (by simp)
      · rw [if_neg hwu] at hw
        simp only [confirmQuantity]
        rw [hmap w, hnone w hw]
        rfl
    · intro w c hw
      simp only [hsingle] at hw
      by_cases hwu : w = u.id
      · rw [if_pos hwu] at hw
        injection hw with hw
        subst hw
        simp only [confirmQuantity]
        rw [hwu, hmap u.id, hcur]
        rfl
      · rw [if_neg hwu] at hw
        have hcw : activeSessions sys.store.sessions w = [c] := hsome w c hw
        have hcmem : c ∈ sys.store.sessions ∧ c.worker_id = w :=
          ⟨(mem_activeSessions.mp (hcw ▸ List.mem_singleton.mpr rfl)).1,
           (mem_activeSessions.mp (hcw ▸ List.mem_singleton.mpr rfl)).2.1⟩
        have hcne : c.id ≠ cur.id := by
          intro hid
          have hccur : c = cur := id_inj_of_nodup hnd hcmem.1 hcurmem hid
          have hcuw : cur.worker_id = u.id :=
            (mem_activeSessions.mp (hcur ▸ List.mem_singleton.mpr rfl)).2.1
          rw [hccur, hcuw] at hcmem
          exact hwu hcmem.2.symm
        simp only [confirmQuantity]
        rw [hmap w, hcw, List.map_singleton, bumpTotals_of_ne cur qty hcne]

lemma activeSessions_close_self {l : List CountingSession} {w : String}
    {cur : CountingSession} (hcur : activeSessions l w = [cur]) (now : Int) :
    activeSessions (l.map (closeSession cur now)) w = [] := by
  rw [show activeSessions (l.map (closeSession cur now)) w
        = List.filter (fun s => s.worker_id == w && s.status == "active")
          (l.map (closeSession cur now)) from rfl]
  rw [List.filter_eq_nil_iff]
  intro x hx
  rw [List.mem_map] at hx
  obtain ⟨s, hs, hfs⟩ := hx
  by_cases hsid : s.id = cur.id
  · subst hfs
    unfold closeSession
    rw [if_pos hsid]
    simp
  · subst hfs
    rw [closeSession_of_ne cur now hsid]
    intro hpred
    simp only [Bool.and_eq_true, beq_iff_eq] at hpred
    have hmem : s ∈ activeSessions l w :=
      mem_activeSessions.mpr ⟨hs, hpred.1, hpred.2⟩
    rw [hcur, List.mem_singleton] at hmem
    exact hsid (by rw [hmem])

lemma coherent_endSession {sys sys' : WSys} {u : UserCtx} {now : Int}
    {today : String}
    (hC : Coherent sys)
    (h : endFn sys u now today = some sys') : Coherent sys' := by
  obtain ⟨hnd, hnone, hsome⟩ := hC
  unfold endFn at h
  cases hcl : sys.clients u.id with
  | none => rw [hcl] at h; exact absurd h (by simp)
  | some cur =>
    rw [hcl] at h
    injection h with h
    subst h
    have hcur : activeSessions sys.store.sessions u.id = [cur] :=
      hsome u.id cur hcl
    have hcurmem : cur ∈ sys.store.sessions :=
      (mem_activeSessions.mp (hcur ▸ List.mem_singleton.mpr rfl)).1
    have hcuw : cur.worker_id = u.id :=
      (mem_activeSessions.mp (hcur ▸ List.mem_singleton.mpr rfl)).2.1
    have hself : activeSessions
        (sys.store.sessions.map (closeSession cur now)) u.id = [] :=
      activeSessions_close_self hcur now
    have hother : ∀ w, w ≠ u.id →
        activeSessions (sys.store.sessions.map (closeSession cur now)) w
          = activeSessions sys.store.sessions w := by
      intro w hwu
      have hp : ∀ s ∈ sys.store.sessions,
          ((closeSession cur now s).worker_id == w
            && (closeSession cur now s).status == "active")
            = (s.worker_id == w && s.status == "active") := by
        intro s hs
        by_cases hsid : s.id = cur.id
        · have hscur : s = cur := id_inj_of_nodup hnd hs hcurmem hsid
          subst hscur
          unfold closeSession
          rw [if_pos hsid]
          have hne : (s.worker_id == w) = false :=
            beq_eq_false_iff_ne.mpr (fun hh => hwu (by rw [← hh]; exact hcuw))
          simp [hne]
        · rw [closeSession_of_ne cur now hsid]
      rw [activeSessions_map hp]
      have hid2 : ∀ s ∈ activeSessions sys.store.sessions w,
          closeSession cur now s = s := by
        intro s hs
        obtain ⟨hsl, hsw, _⟩ := mem_activeSessions.mp hs
        refine closeSession_of_ne cur now ?_
        intro hsid
        have hscur : s = cur := id_inj_of_nodup hnd hsl hcurmem hsid
        exact hwu (by rw [← hsw, hscur, hcuw])
      rw [List.map_congr_left hid2, List.map_id']
    have hsingle : singleActive (endCounting sys.store cur u now today) u.id
        = none := by
      unfold singleActive endCounting
      simp only
      rw [hself]
    refine ⟨?_, ?_, ?_⟩
    · simp only [endCounting]
      exact map_id_nodup (closeSession_id cur now) hnd
    · intro w hw
      simp only [hsingle] at hw
      by_cases hwu : w = u.id
      · simp only [endCounting]
        rw [hwu]
        exact hself
      · rw [if_neg hwu] at hw
        simp only [endCounting]
        rw [hother w hwu]
        exact hnone w hw
    · intro w c hw
      simp only [hsingle] at hw
      by_cases hwu : w = u.id
      · rw [if_pos hwu] at hw
        exact absurd hw (by simp)
      · rw [if_neg hwu] at hw
        simp only [endCounting]
        rw [hother w hwu]
        exact hsome w c hw

/-- Every reachable dashboard state is coherent. -/
lemma reach_coherent {sys : WSys} (h : Reach sys) : Coherent sys := by
  induction h with
  | init => exact coherent_initSys
  | start _ hfresh hstep ih => exact coherent_start ih hfresh hstep
  | record _ hstep ih => exact coherent_record ih hstep
  | endSession _ hstep ih => exact coherent_endSession ih hstep

lemma mem_matchingOTPs {store : List OTPRequest} {w c : String} {now : Int}
    {r : OTPRequest} :
    r ∈ matchingOTPs store w c now ↔
      r ∈ store ∧ r.worker_id = w ∧ r.otp_code = c ∧ r.is_used = false ∧
        now < r.expires_at := by
  simp [matchingOTPs, otpEligible, List.mem_filter, and_assoc]

/-- C1 (amended): `Verify(worker_id, otp_code)` succeeds iff exactly one
unused request matches `(worker_id, otp_code)` with `expires_at` strictly
later than now (the `.single()` fetch also fails when several match); on
success it returns the matching request and marks it `is_used = true`; every
failure is uniformly `InvalidOrExpiredOTP`; and a second, no earlier, `Verify`
call with the same previously-successful pair fails with
`InvalidOrExpiredOTP`. -/
theorem verifyOTP_spec (store : List OTPRequest) (w c : String)
    (now now' : Int) (hle : now ≤ now') :
    ((matchingOTPs store w c now).length = 1 ↔
      ∃ p, verifyOTP store w c now = .ok p) ∧
    (∀ r store2, verifyOTP store w c now = .ok (r, store2) →
      r ∈ store ∧ r.worker_id = w ∧ r.otp_code = c ∧ r.is_used = false ∧
        now < r.expires_at ∧ store2 = markOTPUsed store r.id ∧
        verifyOTP store2 w c now' = .error "Invalid or expired OTP") ∧
    (∀ e, verifyOTP store w c now = .error e →
      e = "Invalid or expired OTP") := by
  refine ⟨?_, ?_, ?_⟩
  · unfold verifyOTP
    rcases hm : matchingOTPs store w c now with _ | ⟨a, _ | ⟨b, t⟩⟩ <;> simp
  · intro r store2 hok
    unfold verifyOTP at hok
    rcases hm : matchingOTPs store w c now with _ | ⟨a, _ | ⟨b, t⟩⟩
    · rw [hm] at hok; exact absurd hok (by simp)
    · rw [hm] at hok
      simp only [Except.ok.injEq, Prod.mk.injEq] at hok
      obtain ⟨har, hstore2⟩ := hok
      subst har
      have hmem : a ∈ matchingOTPs store w c now := by
        rw [hm]; exact List.mem_singleton.mpr rfl
      obtain ⟨h1, h2, h3, h4, h5⟩ := mem_matchingOTPs.mp hmem
      refine ⟨h1, h2, h3, h4, h5, hstore2.symm, ?_⟩
      subst hstore2
      have hnil : matchingOTPs (markOTPUsed store a.id) w c now' = [] := by
        unfold matchingOTPs markOTPUsed
        rw [List.filter_eq_nil_iff]
        intro x hx
        rw [List.mem_map] at hx
        obtain ⟨q, hq, hfq⟩ := hx
        by_cases hid : q.id = a.id
        · subst hfq; rw [if_pos hid]; simp [otpEligible]
        · subst hfq
          rw [if_neg hid]
          intro helig
          have hq2 : q ∈ matchingOTPs store w c now := by
            rw [mem_matchingOTPs]
            unfold otpEligible at helig
            simp only [Bool.and_eq_true, beq_iff_eq, decide_eq_true_eq] at helig
            exact ⟨hq, helig.1.1.1, helig.1.1.2, helig.1.2,
              lt_of_le_of_lt hle helig.2⟩
          rw [hm, List.mem_singleton] at hq2
          exact hid (by rw [hq2])
      unfold verifyOTP
      rw [hnil]
    · rw [hm] at hok; exact absurd hok (by simp)
  · intro e he
    unfold verifyOTP at he
    rcases hm : matchingOTPs store w c now with _ | ⟨a, _ | ⟨b, t⟩⟩ <;>
      rw [hm] at he
    · simp only [Except.error.injEq] at he; exact he.symm
    · exact absurd he (by simp)
    · simp only [Except.error.injEq] at he; exact he.symm

/-- C1 witness: on a one-request store verification succeeds, and the second
verification with the same pair fails. -/
theorem verifyOTP_spec_witness :
    verifyOTP (markOTPUsed demoOTPStore 1) "w" "123456" 0
      = .error "Invalid or expired OTP" := by
  have h := (verifyOTP_spec demoOTPStore "w" "123456" 0 0 le_rfl).2.1
  have hok : verifyOTP demoOTPStore "w" "123456" 0
      = .ok (demoOTP, markOTPUsed demoOTPStore demoOTP.id) := rfl
  exact (h demoOTP (markOTPUsed demoOTPStore demoOTP.id) hok).2.2.2.2.2.2

/-- C1 counterexample: with two identical outstanding requests an unused,
unexpired matching request exists, yet `Verify` fails (the `.single()` fetch
rejects multiple rows), refuting the claimed "if and only if there exists"
characterisation. -/
theorem verifyOTP_exists_match_yet_fails :
    demoOTP ∈ dupOTPStore ∧
    demoOTP.worker_id = "w" ∧ demoOTP.otp_code = "123456" ∧
    demoOTP.is_used = false ∧ (0 : Int) < demoOTP.expires_at ∧
    verifyOTP dupOTPStore "w" "123456" 0
      = .error "Invalid or expired OTP" := by
  refine ⟨by simp [dupOTPStore], rfl, rfl, rfl, by norm_num [demoOTP], rfl⟩

/-- C2 counterexample: no random seed ever produces a code below `100000`, so
the generated codes are not uniform over `000000`–`999999` and never carry a
leading zero. -/
theorem generateOTP_no_small_codes :
    ¬ ∃ r : Nat, generateOTPNum r < 100000 := by
  rintro ⟨r, h⟩
  unfold generateOTPNum at h
  omega

/-- C2 (amended): `Issue` generates a uniformly random 6-digit code in the
range `100000`–`999999` (each such code is attainable and the map from seed
residues to codes is injective, hence uniform; leading zeros never occur),
stores it as decimal text, sets `expires_at` exactly 10 minutes after
issuance, sets `is_used = false`, and persists the record. -/
theorem createOTPRequest_spec (store : List OTPRequest) (w tl : String)
    (now : Int) (r newId : Nat) (c r1 r2 : Nat)
    (hc1 : 100000 ≤ c) (hc2 : c ≤ 999999)
    (hr1 : r1 < 900000) (hr2 : r2 < 900000)
    (hgen : generateOTPNum r1 = generateOTPNum r2) :
    100000 ≤ generateOTPNum r ∧ generateOTPNum r ≤ 999999 ∧
    (createOTPRequest store w tl now r newId).1.otp_code
      = Nat.repr (generateOTPNum r) ∧
    (createOTPRequest store w tl now r newId).1.expires_at
      = now + 10 * 60 * 1000 ∧
    (createOTPRequest store w tl now r newId).1.is_used = false ∧
    (createOTPRequest store w tl now r newId).2
      = store ++ [(createOTPRequest store w tl now r newId).1] ∧
    generateOTPNum (c - 100000) = c ∧
    r1 = r2 := by
  refine ⟨?_, ?_, rfl, rfl, rfl, rfl, ?_, ?_⟩
  · unfold generateOTPNum; omega
  · unfold generateOTPNum; omega
  · unfold generateOTPNum; omega
  · unfold generateOTPNum at hgen; omega

/-- C2 witness: the amended statement instantiated at seed `0`, code
`123456`, and equal residues. -/
theorem createOTPRequest_spec_witness :
    100000 ≤ generateOTPNum 0 ∧
    (createOTPRequest [] "w" "t" 0 0 1).1.is_used = false ∧
    generateOTPNum 23456 = 123456 := by
  have h := createOTPRequest_spec [] "w" "t" 0 0 1 123456 7 7
    (by norm_num) (by norm_num) (by norm_num) (by norm_num) rfl
  exact ⟨h.1, h.2.2.2.2.1, h.2.2.2.2.2.2.1⟩

/-- C10: when `Verify` fails, `handleOTPVerification` leaves the store
untouched — no request is marked used and no worker is approved; the approval
update happens only in the success branch, where it sets the worker's
`is_approved` and installs the post-verification request store. -/
theorem handleOTPVerification_spec (st : ApprovalState) (w c : String)
    (now : Int) :
    (∀ e, verifyOTP st.otps w c now = .error e →
      handleOTPVerification st w c now = st) ∧
    (∀ r otps2, verifyOTP st.otps w c now = .ok (r, otps2) →
      handleOTPVerification st w c now =
        { users := st.users.map
            (fun v => if v.id = w then { v with is_approved := true } else v)
          otps := otps2 }) := by
  constructor
  · intro e he
    unfold handleOTPVerification
    rw [he]
  · intro r otps2 hok
    unfold handleOTPVerification
    rw [hok]

/-- C10 witness: a failing verification against an empty request store leaves
the approval state unchanged. -/
theorem handleOTPVerification_spec_witness :
    handleOTPVerification demoApproval "w" "000000" 0 = demoApproval :=
  (handleOTPVerification_spec demoApproval "w" "000000" 0).1
    "Invalid or expired OTP" rfl

lemma demoStart : startFn initSys demoUser 0 1 = some demoSys1 := rfl

lemma demoReach1 : Reach demoSys1 :=
  Reach.start Reach.init (by simp [initSys]) demoStart

lemma max_one_cast_pos (m : Int) : (0 : ℚ) < ((max 1 m : Int) : ℚ) := by
  have h : (1 : Int) ≤ max 1 m := le_max_left _ _
  exact_mod_cast lt_of_lt_of_le Int.zero_lt_one h

lemma efficiencyScore_nonneg (b : Nat) (m : Int) : 0 ≤ efficiencyScore b m := by
  unfold efficiencyScore jsRound
  refine le_min (by norm_num) ?_
  have hq : (0 : ℚ) ≤ (b : ℚ) / ((max 1 m : Int) : ℚ) * 60 :=
    mul_nonneg (div_nonneg (Nat.cast_nonneg b) (le_of_lt (max_one_cast_pos m)))
      (by norm_num)
  exact Int.le_floor.mpr (by push_cast at hq ⊢; linarith)

lemma efficiencyScore_zero (m : Int) : efficiencyScore 0 m = 0 := by
  unfold efficiencyScore jsRound
  norm_num

lemma efficiencyScore_5_120 : efficiencyScore 5 120 = 3 := by
  have hmax : (max 1 120 : Int) = 120 := rfl
  unfold efficiencyScore jsRound
  rw [hmax]
  norm_num

lemma efficiencyScore_60_1 : efficiencyScore 60 1 = 100 := by
  have hmax : (max 1 1 : Int) = 1 := rfl
  unfold efficiencyScore jsRound
  rw [hmax]
  norm_num

/-- C3: for every bin count and every (possibly nonpositive) elapsed-minutes
value, the efficiency score is `min(100, round((bins / max(1, minutes)) * 60))`
and lies in `[0, 100]`; in particular `Score(5, 120) = 3`,
`Score(0, m) = 0` for every `m`, and `Score(60, 1) = 100`. -/
theorem efficiencyScore_spec (b : Nat) (m : Int) :
    efficiencyScore b m
      = min 100 (jsRound ((b : ℚ) / ((max 1 m : Int) : ℚ) * 60)) ∧
    0 ≤ efficiencyScore b m ∧ efficiencyScore b m ≤ 100 ∧
    efficiencyScore 5 120 = 3 ∧ (∀ k : Int, efficiencyScore 0 k = 0) ∧
    efficiencyScore 60 1 = 100 :=
  ⟨rfl, efficiencyScore_nonneg b m, min_le_left _ _, efficiencyScore_5_120,
    efficiencyScore_zero, efficiencyScore_60_1⟩

/-- C4: ending an active session completes it with `end_time = now`, computes
`time_taken_minutes = round((end - start) / 60s)`, leaves the records alone,
and synchronously inserts exactly one `worker_efficiency` row carrying the
session's totals, the elapsed minutes and the score; ending with zero bins is
permitted and scores zero. -/
theorem endFn_spec (sys : WSys) (u : UserCtx) (now : Int) (today : String)
    (cur : CountingSession) (sys' : WSys)
    (hc : sys.clients u.id = some cur)
    (h : endFn sys u now today = some sys') :
    sys'.store.sessions = sys.store.sessions.map (closeSession cur now) ∧
    (closeSession cur now cur).status = "completed" ∧
    (closeSession cur now cur).end_time = some now ∧
    sys'.store.records = sys.store.records ∧
    sys'.store.efficiencies = sys.store.efficiencies ++
      [{ warehouse_name := u.warehouse_name
         date := today
         username := u.username
         bins_counted := cur.total_bins_counted
         qty_counted := cur.total_qty_counted
         time_taken_minutes := jsRound (((now - cur.start_time : Int) : ℚ) / (1000 * 60))
         efficiency_score := efficiencyScore cur.total_bins_counted
           (jsRound (((now - cur.start_time : Int) : ℚ) / (1000 * 60)))
         ranking := 1 }] ∧
    (cur.total_bins_counted = 0 →
      efficiencyScore cur.total_bins_counted
        (jsRound (((now - cur.start_time : Int) : ℚ) / (1000 * 60))) = 0) := by
  unfold endFn at h
  rw [hc] at h
  injection h with h
  subst h
  refine ⟨rfl, ?_, ?_, rfl, rfl, ?_⟩
  · unfold closeSession
    rw [if_pos rfl]
  · unfold closeSession
    rw [if_pos rfl]
  · intro h0
    rw [h0]
    exact efficiencyScore_zero _

/-- C4 witness: ending the demo session (zero bins counted) is permitted and
yields a zero efficiency score. -/
theorem endFn_spec_witness :
    efficiencyScore demoSession.total_bins_counted
      (jsRound (((300000 - demoSession.start_time : Int) : ℚ) / (1000 * 60)))
      = 0 := by
  obtain ⟨sysE, hE⟩ : ∃ x, endFn demoSys1 demoUser 300000 "d" = some x :=
    ⟨_, rfl⟩
  exact (endFn_spec demoSys1 demoUser 300000 "d" demoSession sysE rfl
    hE).2.2.2.2.2 rfl

/-- C5: recording a count while a session is active appends exactly one
`counting_records` row referencing the session and bumps the session totals by
one bin and by the counted quantity; the sample scenario (record `A001` with
85 and `A002` with 40 after starting) yields totals `2` and `125`. -/
theorem recordFn_spec :
    (∀ (sys : WSys) (u : UserCtx) (today bin : String) (qty bookQty : Nat)
      (cur : CountingSession) (sys' : WSys),
      Reach sys → sys.clients u.id = some cur →
      recordFn sys u today bin qty bookQty = some sys' →
      sys'.store.records = sys.store.records ++
        [{ session_id := cur.id, warehouse_name := u.warehouse_name
           date := today, team_leader_name := "TL1", username := u.username
           bin_no := bin, qty_counted := qty, qty_as_per_books := bookQty
           difference := 0 }] ∧
      sys'.clients u.id = some (bumpTotals cur qty cur) ∧
      (bumpTotals cur qty cur).total_bins_counted
        = cur.total_bins_counted + 1 ∧
      (bumpTotals cur qty cur).total_qty_counted
        = cur.total_qty_counted + qty) ∧
    demoStep.map (fun s => activeSessions s.store.sessions "w1")
      = some [{ id := 1, worker_id := "w1", start_time := 0, end_time := none
                status := "active", total_bins_counted := 2
                total_qty_counted := 125 }] ∧
    demoStep.map
        (fun s => s.store.records.map (fun rec => (rec.bin_no, rec.qty_counted)))
      = some [("A001", 85), ("A002", 40)] := by
  refine ⟨?_, rfl, rfl⟩
  intro sys u today bin qty bookQty cur sys' hR hc h
  obtain ⟨hnd, hnone, hsome⟩ := reach_coherent hR
  have hcur : activeSessions sys.store.sessions u.id = [cur] :=
    hsome u.id cur hc
  have hmap : ∀ w, activeSessions
      (sys.store.sessions.map (bumpTotals cur qty)) w
      = (activeSessions sys.store.sessions w).map (bumpTotals cur qty) :=
    fun w => activeSessions_map (fun s _ => bumpTotals_pred cur qty w s)
  have hsingle : singleActive
      (confirmQuantity sys.store cur u today bin qty bookQty) u.id
      = some (bumpTotals cur qty cur) := by
    unfold singleActive confirmQuantity
    rw [hmap u.id, hcur]
    rfl
  unfold recordFn at h
  rw [hc] at h
  injection h with h
  subst h
  refine ⟨rfl, ?_, ?_, ?_⟩
  · simp [hsingle]
  · unfold bumpTotals
    rw [if_pos rfl]
  · unfold bumpTotals
    rw [if_pos rfl]

/-- C5 witness: the general record step applied to the demo session with
quantity 85. -/
theorem recordFn_spec_witness :
    (bumpTotals demoSession 85 demoSession).total_qty_counted
      = demoSession.total_qty_counted + 85 := by
  obtain ⟨sys2, h2⟩ :
      ∃ x, recordFn demoSys1 demoUser "d" "A001" 85 100 = some x := ⟨_, rfl⟩
  exact (recordFn_spec.1 demoSys1 demoUser "d" "A001" 85 100 demoSession sys2
    demoReach1 rfl h2).2.2.2

/-- C6: in every reachable dashboard state each worker has at most one active
session, and the component offers Start only when it holds no current
session. -/
theorem atMostOneActive (sys : WSys) (hR : Reach sys) :
    (∀ w, (activeSessions sys.store.sessions w).length ≤ 1) ∧
    (∀ (u : UserCtx) (now : Int) (newId : Nat) (sys' : WSys),
      startFn sys u now newId = some sys' → sys.clients u.id = none) := by
  obtain ⟨hnd, hnone, hsome⟩ := reach_coherent hR
  constructor
  · intro w
    cases hcl : sys.clients w with
    | none => rw [hnone w hcl]; simp
    | some c => rw [hsome w c hcl]; simp
  · intro u now newId sys' h
    cases hcl : sys.clients u.id with
    | none => rfl
    | some c =>
      unfold startFn at h
      rw [hcl] at h
      exact absurd h (by simp)

/-- C6 witness: the invariant evaluated at the reachable one-session state. -/
theorem atMostOneActive_witness :
    (activeSessions demoSys1.store.sessions "w1").length ≤ 1 :=
  (atMostOneActive demoSys1 demoReach1).1 "w1"

/-- C7: in a reachable state, a successful End happened on a worker whose
current session exists in the store with status active; immediately ending
again fails (the component holds no current session any more). -/
theorem endFn_only_from_active (sys : WSys) (u : UserCtx) (now : Int)
    (today : String) (sys' : WSys) (hR : Reach sys)
    (h : endFn sys u now today = some sys') :
    (∃ cur, sys.clients u.id = some cur ∧ cur ∈ sys.store.sessions ∧
      cur.status = "active") ∧
    (∀ (now2 : Int) (today2 : String), endFn sys' u now2 today2 = none) := by
  obtain ⟨hnd, hnone, hsome⟩ := reach_coherent hR
  unfold endFn at h
  cases hcl : sys.clients u.id with
  | none => rw [hcl] at h; exact absurd h (by simp)
  | some cur =>
    rw [hcl] at h
    injection h with h
    subst h
    have hcur : activeSessions sys.store.sessions u.id = [cur] :=
      hsome u.id cur hcl
    have hmem := mem_activeSessions.mp (hcur ▸ List.mem_singleton.mpr rfl)
    refine ⟨⟨cur, rfl, hmem.1, hmem.2.2⟩, ?_⟩
    have hself := activeSessions_close_self hcur now
    have hsingle : singleActive (endCounting sys.store cur u now today) u.id
        = none := by
      unfold singleActive endCounting
      simp only
      rw [hself]
    intro now2 today2
    unfold endFn
    simp [hsingle]

/-- C7 witness: ending the demo session succeeds once; ending again right
after returns nothing. -/
theorem endFn_only_from_active_witness :
    (endFn demoSys1 demoUser 300000 "d").bind
      (fun s => endFn s demoUser 600000 "d") = none := by
  obtain ⟨sysE, hE⟩ : ∃ x, endFn demoSys1 demoUser 300000 "d" = some x :=
    ⟨_, rfl⟩
  have h2 := (endFn_only_from_active demoSys1 demoUser 300000 "d" sysE
    demoReach1 hE).2 600000 "d"
  rw [hE]
  simpa using h2

lemma startFn_effs {sys sys' : WSys} {u : UserCtx} {now : Int} {newId : Nat}
    (h : startFn sys u now newId = some sys') :
    sys'.store.efficiencies = sys.store.efficiencies := by
  unfold startFn at h
  cases hcl : sys.clients u.id with
  | some c => rw [hcl] at h; exact absurd h (by simp)
  | none =>
    rw [hcl] at h
    injection h with h
    subst h
    rfl

lemma recordFn_effs {sys sys' : WSys} {u : UserCtx} {today bin : String}
    {qty bookQty : Nat}
    (h : recordFn sys u today bin qty bookQty = some sys') :
    sys'.store.efficiencies = sys.store.efficiencies := by
  unfold recordFn at h
  cases hcl : sys.clients u.id with
  | none => rw [hcl] at h; exact absurd h (by simp)
  | some cur =>
    rw [hcl] at h
    injection h with h
    subst h
    rfl

lemma endFn_effs {sys sys' : WSys} {u : UserCtx} {now : Int} {today : String}
    (h : endFn sys u now today = some sys') :
    ∃ row, sys'.store.efficiencies = sys.store.efficiencies ++ [row] ∧
      row.ranking = 1 := by
  unfold endFn at h
  cases hcl : sys.clients u.id with
  | none => rw [hcl] at h; exact absurd h (by simp)
  | some cur =>
    rw [hcl] at h
    injection h with h
    subst h
    exact ⟨_, rfl, rfl⟩

lemma reach_ranking {sys : WSys} (h : Reach sys) :
    ∀ e ∈ sys.store.efficiencies, e.ranking = 1 := by
  induction h with
  | init => intro e he; simp [initSys] at he
  | start _ _ hstep ih =>
    intro e he
    rw [startFn_effs hstep] at he
    exact ih e he
  | record _ hstep ih =>
    intro e he
    rw [recordFn_effs hstep] at he
    exact ih e he
  | endSession _ hstep ih =>
    intro e he
    obtain ⟨row, heff, hrank⟩ := endFn_effs hstep
    rw [heff] at he
    rcases List.mem_append.mp he with hl | hr
    · exact ih e hl
    · rw [List.mem_singleton] at hr
      rw [hr]
      exact hrank

/-- C8: in every reachable state every `worker_efficiency` row has
`ranking = 1`; the operations never touch existing efficiency rows — start and
record leave them untouched, and end appends exactly one new row, created with
`ranking = 1`. -/
theorem ranking_always_one (sys : WSys) (hR : Reach sys) :
    (∀ e ∈ sys.store.efficiencies, e.ranking = 1) ∧
    (∀ (u : UserCtx) (now : Int) (newId : Nat) (sys' : WSys),
      startFn sys u now newId = some sys' →
        sys'.store.efficiencies = sys.store.efficiencies) ∧
    (∀ (u : UserCtx) (today bin : String) (qty bookQty : Nat) (sys' : WSys),
      recordFn sys u today bin qty bookQty = some sys' →
        sys'.store.efficiencies = sys.store.efficiencies) ∧
    (∀ (u : UserCtx) (now : Int) (today : String) (sys' : WSys),
      endFn sys u now today = some sys' →
        ∃ row, sys'.store.efficiencies = sys.store.efficiencies ++ [row] ∧
          row.ranking = 1) :=
  ⟨reach_ranking hR, fun _ _ _ _ h => startFn_effs h,
    fun _ _ _ _ _ _ h => recordFn_effs h, fun _ _ _ _ h => endFn_effs h⟩

/-- C8 witness: the efficiency row created by ending the demo session carries
`ranking = 1`. -/
theorem ranking_always_one_witness :
    ({ warehouse_name := "WH1", date := "d", username := "worker1"
       bins_counted := 0, qty_counted := 0, time_taken_minutes := 5
       efficiency_score := 0, ranking := 1 } : WorkerEfficiency).ranking
      = 1 := by
  obtain ⟨sysE, hE⟩ : ∃ x, endFn demoSys1 demoUser 300000 "d" = some x :=
    ⟨_, rfl⟩
  have hReachE : Reach sysE := Reach.endSession demoReach1 hE
  refine (ranking_always_one sysE hReachE).1 _ ?_
  have hL : (endFn demoSys1 demoUser 300000 "d").map
      (fun s : WSys => s.store.efficiencies)
      = some [{ warehouse_name := demoUser.warehouse_name
                date := "d"
                username := demoUser.username
                bins_counted := demoSession.total_bins_counted
                qty_counted := demoSession.total_qty_counted
                time_taken_minutes :=
                  jsRound (((300000 - demoSession.start_time : Int) : ℚ) / (1000 * 60))
                efficiency_score := efficiencyScore demoSession.total_bins_counted
                  (jsRound (((300000 - demoSession.start_time : Int) : ℚ) / (1000 * 60)))
                ranking := 1 }] := rfl
  rw [hE] at hL
  simp only [Option.map_some', Option.some.injEq] at hL
  rw [hL, List.mem_singleton]
  norm_num [demoUser, demoSession, jsRound, efficiencyScore]

lemma startFn_records {sys sys' : WSys} {u : UserCtx} {now : Int} {newId : Nat}
    (h : startFn sys u now newId = some sys') :
    sys'.store.records = sys.store.records := by
  unfold startFn at h
  cases hcl : sys.clients u.id with
  | some c => rw [hcl] at h; exact absurd h (by simp)
  | none =>
    rw [hcl] at h
    injection h with h
    subst h
    rfl

lemma endFn_records {sys sys' : WSys} {u : UserCtx} {now : Int} {today : String}
    (h : endFn sys u now today = some sys') :
    sys'.store.records = sys.store.records := by
  unfold endFn at h
  cases hcl : sys.clients u.id with
  | none => rw [hcl] at h; exact absurd h (by simp)
  | some cur =>
    rw [hcl] at h
    injection h with h
    subst h
    rfl

lemma recordFn_records {sys sys' : WSys} {u : UserCtx} {today bin : String}
    {qty bookQty : Nat}
    (h : recordFn sys u today bin qty bookQty = some sys') :
    ∃ row, sys'.store.records = sys.store.records ++ [row] ∧
      row.difference = 0 := by
  unfold recordFn at h
  cases hcl : sys.clients u.id with
  | none => rw [hcl] at h; exact absurd h (by simp)
  | some cur =>
    rw [hcl] at h
    injection h with h
    subst h
    exact ⟨_, rfl, rfl⟩

lemma reach_difference {sys : WSys} (h : Reach sys) :
    ∀ rec ∈ sys.store.records, rec.difference = 0 := by
  induction h with
  | init => intro rec hrec; simp [initSys] at hrec
  | start _ _ hstep ih =>
    intro rec hrec
    rw [startFn_records hstep] at hrec
    exact ih rec hrec
  | record _ hstep ih =>
    intro rec hrec
    obtain ⟨row, hrow, hdiff⟩ := recordFn_records hstep
    rw [hrow] at hrec
    rcases List.mem_append.mp hrec with hl | hr
    · exact ih rec hl
    · rw [List.mem_singleton] at hr
      rw [hr]
      exact hdiff
  | endSession _ hstep ih =>
    intro rec hrec
    rw [endFn_records hstep] at hrec
    exact ih rec hrec

/-- C9: every record the counting flow appends stores `difference = 0`, for
all values of `qty_counted` and `qty_as_per_books`; hence in every reachable
state every `counting_records` row has `difference = 0`. -/
theorem difference_always_zero (sys : WSys) (hR : Reach sys) :
    (∀ rec ∈ sys.store.records, rec.difference = 0) ∧
    (∀ (store : CStore) (cur : CountingSession) (u : UserCtx)
       (today bin : String) (qty bookQty : Nat),
      (confirmQuantity store cur u today bin qty bookQty).records
        = store.records ++
          [{ session_id := cur.id, warehouse_name := u.warehouse_name
             date := today, team_leader_name := "TL1", username := u.username
             bin_no := bin, qty_counted := qty, qty_as_per_books := bookQty
             difference := 0 }]) :=
  ⟨reach_difference hR, fun _ _ _ _ _ _ _ => rfl⟩

/-- C9 witness: a record with counted quantity 85 against book quantity 100
still stores `difference = 0`. -/
theorem difference_always_zero_witness :
    ({ session_id := 1, warehouse_name := "WH1", date := "d"
       team_leader_name := "TL1", username := "worker1", bin_no := "A001"
       qty_counted := 85, qty_as_per_books := 100, difference := 0 }
      : CountingRecord).difference = 0 := by
  obtain ⟨sys2, h2⟩ :
      ∃ x, recordFn demoSys1 demoUser "d" "A001" 85 100 = some x := ⟨_, rfl⟩
  have hReach2 : Reach sys2 := Reach.record demoReach1 h2
  refine (difference_always_zero sys2 hReach2).1 _ ?_
  have hL : (recordFn demoSys1 demoUser "d" "A001" 85 100).map
      (fun s : WSys => s.store.records)
      = some [{ session_id := 1, warehouse_name := "WH1", date := "d"
                team_leader_name := "TL1", username := "worker1"
                bin_no := "A001", qty_counted := 85, qty_as_per_books := 100
                difference := 0 }] := rfl
  rw [h2] at hL
  simp only [Option.map_some', Option.some.injEq] at hL
  simp [hL]
